import Mathlib

/-!
Verification of the img-server request handlers (`src/handler.rs`, `src/config.rs`).

The handlers are shallowly embedded as pure Lean functions.  Filesystem
directories become association lists from file names to byte contents; the
external effects the handlers invoke (the SHA-256 hex digest from the `sha2`
crate, the outcome of `fs::rename`, the thumbnail encoder, the
`spawn_blocking` join result, and `save_config`) are supplied as explicit
parameters of an environment record, so every exit path of the Rust code is a
branch of the Lean function.
-/

deriving instance DecidableEq for Except

/-- Byte strings are lists of byte values. -/
abbrev Bytes := List Nat

/-- A directory: an association list from file name to file content.
`putFile` keeps names unique, so one entry per file. -/
abbrev FsDir := List (String × Bytes)

/-- Look a file up in a directory (models `path.exists()` / `File::open`). -/
def getFile (d : FsDir) (n : String) : Option Bytes :=
  (d.find? (fun e => e.1 == n)).map (fun e => e.2)

/-- Remove a file from a directory (models `fs::remove_file`; removing an
absent file is a no-op, matching the handlers, which ignore that error). -/
def eraseFile (d : FsDir) (n : String) : FsDir :=
  d.filter (fun e => e.1 != n)

/-- Create or overwrite a file (models `File::create` and the overwriting
POSIX `rename` semantics). -/
def putFile (d : FsDir) (n : String) (c : Bytes) : FsDir :=
  (n, c) :: eraseFile d n

/-- How many directory entries carry the given name. -/
def countName (d : FsDir) (n : String) : Nat :=
  (d.filter (fun e => e.1 == n)).length

/-- The three storage directories the handlers touch: `temp` (staging),
`images` (committed originals), `thumbs` (thumbnails). -/
structure Fs where
  temp : FsDir
  images : FsDir
  thumbs : FsDir
deriving DecidableEq, Repr

/-- `ImageMeta` from `config.rs`: name, description, content hash (hex) and
creation timestamp (timestamps are abstracted to `Nat`). -/
structure ImageMeta where
  name : String
  desc : String
  hash : String
  created_at : Nat
deriving DecidableEq, Repr

/-- The parts of `AppConfig` the handlers read: token set, IP blacklist,
the ordered image record list, and the optional thumbnail pixel budget.
The Rust `HashSet`s are modelled as lists queried with `contains`. -/
structure AppConfig where
  tokens : List String
  blacklist : List String
  images : List ImageMeta
  thumbnail_pixels : Option Nat
deriving DecidableEq, Repr

/-- `check_ip` (handler.rs:24): `true` iff the caller's address is NOT
blacklisted, i.e. the `Ok(())` branch. -/
def check_ip (config : AppConfig) (addr : String) : Bool :=
  !(config.blacklist.contains addr)

/-- `check_token` (handler.rs:34): `true` iff a token is present and is a
member of the configured token set. -/
def check_token (config : AppConfig) (token : Option String) : Bool :=
  match token with
  | some t => config.tokens.contains t
  | none => false

/-- One `try_next()` step of the `file` part's chunk stream together with the
outcome of the subsequent `write_all` (handler.rs:129-134):
`ok d` — chunk `d` read and written; `writeErr m` — chunk read but the write
to the staging file failed with message `m`; `readErr` — `try_next` returned
`Err`, which the `while let Ok(Some(..))` pattern silently treats as the end
of the stream. -/
inductive ChunkEv where
  | ok (data : Bytes)
  | writeErr (msg : String)
  | readErr
deriving DecidableEq, Repr

/-- One multipart field as seen by the loop at handler.rs:104-143.
`nameF`/`descF` carry the result of `field.text()`; `fileF` carries whether
`File::create` succeeded, the chunk events, and an optional flush error;
`otherF` is a field with an unrecognised name (ignored); `errF` stands for
`next_field()` returning `Err`, which silently ends the loop. -/
inductive MpField where
  | nameF (t : Except String String)
  | descF (t : Except String String)
  | fileF (createOk : Bool) (chunks : List ChunkEv) (flushErr : Option String)
  | otherF (n : String)
  | errF
deriving DecidableEq, Repr

/-- Accumulator of the multipart loop.  `tempFile = some c` holds exactly
when the code has set `file_received = true`, `c` being the bytes written to
the staging file (the hashed bytes and the written bytes coincide on every
path that survives the loop). -/
structure MpAcc where
  nameOpt : Option String
  desc : String
  fileHash : String
  tempFile : Option Bytes
deriving DecidableEq, Repr

/-- The inner chunk loop (handler.rs:129-134): accumulate hashed/written
bytes; a write error aborts with 500; a read error ends the loop silently. -/
def runChunks : List ChunkEv → Bytes → Except (Nat × String) Bytes
  | [], acc => .ok acc
  | .ok d :: rest, acc => runChunks rest (acc ++ d)
  | .writeErr msg :: _, _ => .error (500, msg)
  | .readErr :: _, acc => .ok acc

/-- The multipart field loop (handler.rs:104-143), parameterised by the hex
digest function of the `sha2`/`hex` crates. -/
def processFields (hashHex : Bytes → String) :
    List MpField → MpAcc → Except (Nat × String) MpAcc
  | [], acc => .ok acc
  | .errF :: _, acc => .ok acc
  | .nameF t :: rest, acc =>
    match t with
    | .error e => .error (400, e)
    | .ok s => processFields hashHex rest { acc with nameOpt := some s }
  | .descF t :: rest, acc =>
    match t with
    | .error e => .error (400, e)
    | .ok s => processFields hashHex rest { acc with desc := s }
  | .otherF _ :: rest, acc => processFields hashHex rest acc
  | .fileF createOk chunks flushErr :: rest, acc =>
    if createOk then
      match runChunks chunks [] with
      | .error e => .error e
      | .ok content =>
        match flushErr with
        | some m => .error (500, m)
        | none =>
          processFields hashHex rest
            { acc with fileHash := hashHex content, tempFile := some content }
    else .error (500, "IO Error")

/-- Outcomes of the external calls `upload_image` makes: the digest function,
the staging file name from `uuid`, whether `fs::rename` succeeds (`false`
covers every failure, including a destination created concurrently), the
thumbnail pipeline's output (`none` = decode/encode error, logged and
swallowed), whether the `spawn_blocking` join succeeds, whether `save_config`
succeeds, and the `Utc::now()` timestamp. -/
structure UploadEnv where
  hashHex : Bytes → String
  uuid : String
  renameOk : Bool
  thumbOut : Bytes → Option Bytes
  joinOk : Bool
  saveOk : Bool
  now : Nat

/-- The request data `upload_image` consumes: peer address, the
`x-admin-token` header, and the multipart fields in order. -/
structure UploadReq where
  addr : String
  token : Option String
  fields : List MpField

/-- Observable outcome of `upload_image`: the HTTP response (status code and
message, or the returned `ImageMeta`), the final in-memory record list, the
final filesystem, and two ghost flags recording whether the staged file was
moved into the images directory and whether thumbnail work was spawned. -/
structure UploadResult where
  response : Except (Nat × String) ImageMeta
  images : List ImageMeta
  fs : Fs
  didMove : Bool
  didThumb : Bool
deriving DecidableEq, Repr

/-- The `TempFileGuard` firing (handler.rs:61-69): delete the staging file.
Every exit path on which `persist()` was not called ends in this. -/
def guardFire (fs : Fs) (uuid : String) : Fs :=
  { fs with temp := eraseFile fs.temp uuid }

/-- An error exit of `upload_image` after the guard was armed: the guard
deletes the staging file, no record is appended, nothing was moved. -/
def failOut (cfg : AppConfig) (fs : Fs) (uuid : String) (code : Nat)
    (msg : String) : UploadResult :=
  ⟨.error (code, msg), cfg.images, guardFire fs uuid, false, false⟩

/-- Steps 228-250 of `upload_image`: build the `ImageMeta`, push it onto the
in-memory list (under the write lock), then `save_config`; a save failure is
reported as 500 but the in-memory mutation stays. -/
def finishMeta (cfg : AppConfig) (fs : Fs) (name desc hash : String)
    (env : UploadEnv) (didMove didThumb : Bool) : UploadResult :=
  let meta : ImageMeta := ⟨name, desc, hash, env.now⟩
  if env.saveOk then
    ⟨.ok meta, cfg.images ++ [meta], fs, didMove, didThumb⟩
  else
    ⟨.error (500, "Save config failed"), cfg.images ++ [meta], fs, didMove, didThumb⟩

/-- The commit branch (handler.rs:158-226): the target file is absent, so
rename the staging file into the images directory, run the thumbnail step if
a pixel budget is configured, then `persist()` the guard. -/
def commitBranch (env : UploadEnv) (cfg : AppConfig) (fs : Fs)
    (name desc fileHash : String) (content : Bytes) : UploadResult :=
  if env.renameOk then
    let fsMoved : Fs :=
      { fs with temp := eraseFile fs.temp env.uuid,
                images := putFile fs.images fileHash content }
    match cfg.thumbnail_pixels with
    | some _ =>
      if env.joinOk then
        let fsTh : Fs :=
          match env.thumbOut content with
          | some tb => { fsMoved with thumbs := putFile fsMoved.thumbs fileHash tb }
          | none => fsMoved
        -- temp_guard.persist() runs here (handler.rs:225)
        finishMeta cfg fsTh name desc fileHash env true true
      else
        -- join failure (handler.rs:218-223): persist() not yet reached,
        -- the guard fires, but the staging file was already renamed away
        ⟨.error (500, "Thumb gen failed"), cfg.images, guardFire fsMoved env.uuid,
          true, true⟩
    | none => finishMeta cfg fsMoved name desc fileHash env true false
  else failOut cfg fs env.uuid 500 "File move failed"

/-- `upload_image` (handler.rs:71-251). -/
def upload_image (env : UploadEnv) (cfg : AppConfig) (fs : Fs)
    (req : UploadReq) : UploadResult :=
  if !check_ip cfg req.addr then
    ⟨.error (403, "IP Blacklisted"), cfg.images, fs, false, false⟩
  else if !check_token cfg req.token then
    ⟨.error (401, "Invalid or missing token"), cfg.images, fs, false, false⟩
  else
    -- staging path generated, guard armed (handler.rs:97-99)
    match processFields env.hashHex req.fields ⟨none, "", "", none⟩ with
    | .error e => failOut cfg fs env.uuid e.1 e.2
    | .ok acc =>
      match acc.nameOpt with
      | none => failOut cfg fs env.uuid 400 "Missing 'name'"
      | some name =>
        match acc.tempFile with
        | none => failOut cfg fs env.uuid 400 "Missing 'file'"
        | some content =>
          if (getFile fs.images acc.fileHash).isSome then
            -- dedup (handler.rs:155-157): no move, no thumbnail work; the
            -- guard stays armed and deletes the staging file on drop
            finishMeta cfg (guardFire fs env.uuid) name acc.desc acc.fileHash
              env false false
          else
            commitBranch env cfg fs name acc.desc acc.fileHash content

/-- Rust's `char::is_ascii_hexdigit`. -/
def isHexChar (c : Char) : Bool :=
  (('0' ≤ c && c ≤ '9') || ('A' ≤ c && c ≤ 'F') || ('a' ≤ c && c ≤ 'f'))

/-- The identifier-resolution step of `download_image` (handler.rs:269-275):
first exact `name` match in insertion order, else, when the identifier is 64
ASCII hex digits, the identifier itself as a hash.  (`id.len() == 64` is byte
length in Rust; on a string of ASCII hex digits byte length and character
count coincide, and any other string fails the hex test, so character count
is an exact model.) -/
def resolve_id (images : List ImageMeta) (id : String) : Option String :=
  match images.find? (fun i => i.name == id) with
  | some img => some img.hash
  | none =>
    if id.length == 64 && id.data.all isHexChar then some id
    else none

/-- `download_image` (handler.rs:259-310).  A missing file and a file-open
error are both the 404 branch; success returns the streamed bytes. -/
def download_image (cfg : AppConfig) (fs : Fs) (addr : String) (id : String)
    (thumb : Option Bool) : Except (Nat × String) Bytes :=
  if !check_ip cfg addr then .error (403, "IP Blacklisted")
  else
    match resolve_id cfg.images id with
    | none => .error (404, "Image not found")
    | some hash =>
      let is_thumb := thumb.getD false
      let dir := if is_thumb then fs.thumbs else fs.images
      match getFile dir hash with
      | none => .error (404, "File not found")
      | some content => .ok content

/-- The JSON body `list_images` returns. -/
structure ListResp where
  total : Nat
  page : Nat
  page_size : Nat
  data : List ImageMeta
deriving DecidableEq, Repr

/-- The modulus of `usize` arithmetic on the 64-bit targets the server is
built for. -/
def USIZE_MOD : Nat := 2 ^ 64

/-- `list_images` (handler.rs:319-349): page defaults to 1 and is raised to
at least 1, page size defaults to 20 and is clamped to [1,100]; the data is
the reversed record list with `skip` entries dropped and `page_size` taken.
`skip = (page - 1) * page_size` is a `usize` product: in the release profile
the server runs under it wraps modulo 2^64 (a debug build would panic on
overflow instead), so the model reduces it modulo `USIZE_MOD`.  `page - 1`
itself cannot underflow (`page` was raised to at least 1), and the other
quantities stay far below 2^64. -/
def list_images (cfg : AppConfig) (addr : String)
    (pageQ pageSizeQ : Option Nat) : Except (Nat × String) ListResp :=
  if !check_ip cfg addr then .error (403, "IP Blacklisted")
  else
    let page := max (pageQ.getD 1) 1
    let page_size := min (max (pageSizeQ.getD 20) 1) 100
    let total := cfg.images.length
    let skip := (page - 1) * page_size % USIZE_MOD
    .ok ⟨total, page, page_size, (cfg.images.reverse.drop skip).take page_size⟩

/-- `Vec`'s `iter().position(p)` followed by `remove(index)`
(handler.rs:365-369), fused: the first element satisfying `p` together with
the list with that one element removed. -/
def removeFirst (p : ImageMeta → Bool) : List ImageMeta →
    Option (ImageMeta × List ImageMeta)
  | [] => none
  | x :: xs =>
    if p x then some (x, xs)
    else (removeFirst p xs).map (fun r => (r.1, x :: r.2))

/-- Observable outcome of `delete_image`: response (`204` on success), final
record list and final filesystem. -/
structure DeleteResult where
  response : Except (Nat × String) Nat
  images : List ImageMeta
  fs : Fs
deriving DecidableEq, Repr

/-- `delete_image` (handler.rs:351-388).  `saveOk` is the outcome of
`save_config`. -/
def delete_image (saveOk : Bool) (cfg : AppConfig) (fs : Fs) (addr : String)
    (token : Option String) (name : String) : DeleteResult :=
  if !check_ip cfg addr then ⟨.error (403, "IP Blacklisted"), cfg.images, fs⟩
  else if !check_token cfg token then
    ⟨.error (401, "Invalid or missing token"), cfg.images, fs⟩
  else
    match removeFirst (fun i => i.name == name) cfg.images with
    | none => ⟨.error (404, "Image not found"), cfg.images, fs⟩
    | some (img, rest) =>
      let hash_in_use := rest.any (fun i => i.hash == img.hash)
      let fs1 :=
        if hash_in_use then fs
        else { fs with images := eraseFile fs.images img.hash,
                       thumbs := eraseFile fs.thumbs img.hash }
      if saveOk then ⟨.ok 204, rest, fs1⟩
      else ⟨.error (500, "Save failed"), rest, fs1⟩

/-- The multipart fields of a well-formed upload request: a `name` field, a
`desc` field and a `file` part delivered as the given chunk list, all
error-free. -/
def simpleFields (name desc : String) (chunks : List Bytes) : List MpField :=
  [.nameF (.ok name), .descF (.ok desc),
   .fileF true (chunks.map ChunkEv.ok) none]

/-! ### Helper lemmas about the filesystem model -/

theorem getFile_putFile (d : FsDir) (n : String) (c : Bytes) :
    getFile (putFile d n c) n = some c := by
  simp [getFile, putFile]

theorem eraseFile_putFile (d : FsDir) (n : String) (c : Bytes) :
    eraseFile (putFile d n c) n = eraseFile d n := by
  simp [eraseFile, putFile, List.filter_filter]

theorem eraseFile_idem (d : FsDir) (n : String) :
    eraseFile (eraseFile d n) n = eraseFile d n := by
  simp [eraseFile, List.filter_filter]

theorem countName_putFile (d : FsDir) (n : String) (c : Bytes) :
    countName (putFile d n c) n = 1 := by
  simp [countName, putFile, eraseFile, List.filter_filter]

/-! ### Helper lemmas about the multipart loop -/

theorem runChunks_map_ok (chunks : List Bytes) (acc : Bytes) :
    runChunks (chunks.map ChunkEv.ok) acc = .ok (acc ++ chunks.flatten) := by
  induction chunks generalizing acc with
  | nil => simp [runChunks]
  | cons c cs ih => simp [runChunks, ih]

theorem processFields_simple (H : Bytes → String) (n d : String)
    (chunks : List Bytes) :
    processFields H (simpleFields n d chunks) ⟨none, "", "", none⟩ =
      .ok ⟨some n, d, H chunks.flatten, some chunks.flatten⟩ := by
  simp [simpleFields, processFields, runChunks_map_ok]

/-! ### Helper lemmas about `removeFirst` -/

theorem removeFirst_eq_none (p : ImageMeta → Bool) (l : List ImageMeta)
    (h : ∀ x ∈ l, p x = false) : removeFirst p l = none := by
  induction l with
  | nil => rfl
  | cons x xs ih =>
    simp only [removeFirst, h x (by simp)]
    simp [ih (fun y hy => h y (by simp [hy]))]

theorem removeFirst_first_match (p : ImageMeta → Bool) (l1 l2 : List ImageMeta)
    (x : ImageMeta) (h1 : ∀ y ∈ l1, p y = false) (hx : p x = true) :
    removeFirst p (l1 ++ x :: l2) = some (x, l1 ++ l2) := by
  induction l1 with
  | nil => simp [removeFirst, hx]
  | cons y ys ih =>
    simp only [List.cons_append, removeFirst, h1 y (by simp)]
    simp [ih (fun z hz => h1 z (by simp [hz]))]

/-! ### Helper lemmas for pagination -/

theorem flatten_pages (l : List ImageMeta) (k : Nat) (n : Nat) :
    ((List.range n).map (fun p => (l.drop (p * k)).take k)).flatten =
      l.take (n * k) := by
  induction n with
  | zero => simp
  | succ m ih =>
    rw [List.range_succ, List.map_append, List.flatten_append]
    simp only [List.map_cons, List.map_nil, List.flatten_cons, List.flatten_nil,
      List.append_nil, ih]
    rw [Nat.succ_mul, List.take_add]

theorem le_ceil_mul (N k : Nat) (hk : 0 < k) : N ≤ ((N + k - 1) / k) * k := by
  have h1 := Nat.div_add_mod (N + k - 1) k
  have h2 : (N + k - 1) % k < k := Nat.mod_lt _ hk
  rw [Nat.mul_comm]
  generalize hA : k * ((N + k - 1) / k) = A at h1 ⊢
  generalize hB : (N + k - 1) % k = B at h1 h2
  omega

theorem find_first_match {α : Type} (p : α → Bool) (l1 l2 : List α) (x : α)
    (h1 : ∀ y ∈ l1, p y = false) (hx : p x = true) :
    List.find? p (l1 ++ x :: l2) = some x := by
  induction l1 with
  | nil =>
    rw [List.nil_append]
    exact List.find?_cons_of_pos _ hx
  | cons y ys ih =>
    rw [List.cons_append, List.find?_cons_of_neg _ (by simp [h1 y (by simp)])]
    exact ih (fun z hz => h1 z (by simp [hz]))

/-! ### Claim theorems -/

/-- C10: when the index holds several records with the same name, a
`delete_image name` removes exactly the first-inserted matching record; every
later record, in particular every later record with that name, remains. -/
theorem delete_removes_first_match
    (saveOk : Bool) (cfg : AppConfig) (fs : Fs) (addr : String)
    (token : Option String) (name : String) (l1 l2 : List ImageMeta)
    (img : ImageMeta)
    (hip : check_ip cfg addr = true) (htok : check_token cfg token = true)
    (hsplit : cfg.images = l1 ++ img :: l2)
    (hl1 : ∀ x ∈ l1, x.name ≠ name) (himg : img.name = name) :
    (delete_image saveOk cfg fs addr token name).images = l1 ++ l2 ∧
    ∀ x ∈ l2, x ∈ (delete_image saveOk cfg fs addr token name).images := by
  have hrf : removeFirst (fun i => i.name == name) cfg.images =
      some (img, l1 ++ l2) := by
    rw [hsplit]
    exact removeFirst_first_match _ _ _ _
      (fun y hy => by simp [hl1 y hy]) (by simp [himg])
  have him : (delete_image saveOk cfg fs addr token name).images = l1 ++ l2 := by
    cases saveOk <;> simp [delete_image, hip, htok, hrf]
  exact ⟨him, fun x hx => by rw [him]; exact List.mem_append_right _ hx⟩

/-- C10 witness. -/
theorem delete_removes_first_match_witness :
    (delete_image true ⟨["t"], [], [⟨"n", "", "h1", 0⟩, ⟨"n", "", "h2", 1⟩], none⟩
      ⟨[], [], []⟩ "a" (some "t") "n").images = [] ++ [⟨"n", "", "h2", 1⟩] ∧
    ∀ x ∈ [(⟨"n", "", "h2", 1⟩ : ImageMeta)],
      x ∈ (delete_image true ⟨["t"], [], [⟨"n", "", "h1", 0⟩, ⟨"n", "", "h2", 1⟩], none⟩
        ⟨[], [], []⟩ "a" (some "t") "n").images :=
  delete_removes_first_match true _ _ "a" (some "t") "n" [] [⟨"n", "", "h2", 1⟩]
    ⟨"n", "", "h1", 0⟩ (by decide) (by decide) rfl (by simp) rfl

/-- C5: `delete_image` with a matching name removes that (first-matching)
record, removes the original and thumbnail files for its hash exactly when no
remaining record still references that hash (removal errors being swallowed,
the response depends only on `save_config`), and with no matching name fails
404 leaving index and filesystem unchanged. -/
theorem delete_image_spec
    (saveOk : Bool) (cfg : AppConfig) (fs : Fs) (addr : String)
    (token : Option String) (name : String)
    (hip : check_ip cfg addr = true) (htok : check_token cfg token = true) :
    ((∀ x ∈ cfg.images, x.name ≠ name) →
      delete_image saveOk cfg fs addr token name =
        ⟨.error (404, "Image not found"), cfg.images, fs⟩) ∧
    (∀ img rest,
      removeFirst (fun i => i.name == name) cfg.images = some (img, rest) →
      (delete_image saveOk cfg fs addr token name).images = rest ∧
      (delete_image saveOk cfg fs addr token name).fs =
        (if rest.any (fun i => i.hash == img.hash) then fs
         else { fs with images := eraseFile fs.images img.hash,
                        thumbs := eraseFile fs.thumbs img.hash }) ∧
      (delete_image saveOk cfg fs addr token name).response =
        (if saveOk then .ok 204 else .error (500, "Save failed"))) := by
  constructor
  · intro hnone
    have hrf : removeFirst (fun i => i.name == name) cfg.images = none :=
      removeFirst_eq_none _ _ (fun x hx => by simp [hnone x hx])
    simp [delete_image, hip, htok, hrf]
  · intro img rest hrf
    cases saveOk <;> cases huse : rest.any (fun i => i.hash == img.hash) <;>
      simp [delete_image, hip, htok, hrf, huse]

/-- C5 witness. -/
theorem delete_image_spec_witness :
    ((∀ x ∈ ([⟨"n", "", "h", 0⟩] : List ImageMeta), x.name ≠ "z") →
      delete_image true ⟨["t"], [], [⟨"n", "", "h", 0⟩], none⟩ ⟨[], [("h", [1])], []⟩
        "a" (some "t") "z" =
        ⟨.error (404, "Image not found"), [⟨"n", "", "h", 0⟩], ⟨[], [("h", [1])], []⟩⟩) ∧
    (∀ img rest,
      removeFirst (fun i => i.name == "z")
        ([⟨"n", "", "h", 0⟩] : List ImageMeta) = some (img, rest) →
      (delete_image true ⟨["t"], [], [⟨"n", "", "h", 0⟩], none⟩ ⟨[], [("h", [1])], []⟩
        "a" (some "t") "z").images = rest ∧
      (delete_image true ⟨["t"], [], [⟨"n", "", "h", 0⟩], none⟩ ⟨[], [("h", [1])], []⟩
        "a" (some "t") "z").fs =
        (if rest.any (fun i => i.hash == img.hash) then ⟨[], [("h", [1])], []⟩
         else { Fs.mk [] [("h", [1])] [] with
                  images := eraseFile [("h", [1])] img.hash,
                  thumbs := eraseFile [] img.hash }) ∧
      (delete_image true ⟨["t"], [], [⟨"n", "", "h", 0⟩], none⟩ ⟨[], [("h", [1])], []⟩
        "a" (some "t") "z").response =
        (if true then .ok 204 else .error (500, "Save failed"))) :=
  delete_image_spec true ⟨["t"], [], [⟨"n", "", "h", 0⟩], none⟩ ⟨[], [("h", [1])], []⟩
    "a" (some "t") "z" (by decide) (by decide)

/-- C6 counterexample: the claim's skip formula `(page-1)*page_size` read in
unbounded arithmetic is false of the program.  At the reachable request
`page = 2^58 + 1, page_size = 64` the `usize` product wraps to 0, so the
server returns the newest records, while the claim's formula skips past the
end of the list and yields the empty slice. -/
theorem list_images_wrap_counterexample :
    ∃ resp : ListResp,
      list_images ⟨[], [], [⟨"a", "", "h", 0⟩], none⟩ "ip"
        (some (2 ^ 58 + 1)) (some 64) = .ok resp ∧
      resp.data = [⟨"a", "", "h", 0⟩] ∧
      (([⟨"a", "", "h", 0⟩] : List ImageMeta).reverse.drop
        ((2 ^ 58 + 1 - 1) * 64)).take 64 = [] := by
  refine ⟨⟨1, 2 ^ 58 + 1, 64, [⟨"a", "", "h", 0⟩]⟩, by decide, rfl, ?_⟩
  have hdrop : ([⟨"a", "", "h", 0⟩] : List ImageMeta).reverse.drop
      ((2 ^ 58 + 1 - 1) * 64) = [] :=
    List.drop_eq_nil_of_le (by norm_num)
  rw [hdrop]
  rfl

/-- C6 (amended): `list_images` defaults page to 1 and page size to 20,
clamps the page size into [1,100], reports the full record count as `total`,
and returns as `data` the slice of the reversed (newest-first) record list
obtained by skipping `((page-1)*page_size) mod 2^64` entries — the `usize`
product wraps in the release profile (a debug build would panic) — and
taking `page_size`.  Provided the record count is at most 2^64 (true of any
in-memory `Vec`), no page of the iteration 1..ceil(total/page_size) wraps,
and iterating `list_images` over those pages with a fixed page size
partitions the reversed record list exactly once, with no gaps or
overlaps. -/
theorem list_images_spec
    (cfg : AppConfig) (addr : String) (pageQ pageSizeQ : Option Nat)
    (hip : check_ip cfg addr = true)
    (hN : cfg.images.length ≤ 2 ^ 64) :
    ∃ resp : ListResp,
      list_images cfg addr pageQ pageSizeQ = .ok resp ∧
      resp.page = max (pageQ.getD 1) 1 ∧
      resp.page_size = min (max (pageSizeQ.getD 20) 1) 100 ∧
      1 ≤ resp.page_size ∧ resp.page_size ≤ 100 ∧
      (pageQ = none → resp.page = 1) ∧
      (pageSizeQ = none → resp.page_size = 20) ∧
      resp.total = cfg.images.length ∧
      resp.data = (cfg.images.reverse.drop
        ((resp.page - 1) * resp.page_size % USIZE_MOD)).take resp.page_size ∧
      ((List.range
          ((cfg.images.length + resp.page_size - 1) / resp.page_size)).map
        (fun p =>
          match list_images cfg addr (some (p + 1)) pageSizeQ with
          | .ok r => r.data
          | .error _ => [])).flatten = cfg.images.reverse := by
  have hk1 : 1 ≤ min (max (pageSizeQ.getD 20) 1) 100 :=
    le_min (le_max_right _ _) (by norm_num)
  refine ⟨⟨cfg.images.length, max (pageQ.getD 1) 1,
    min (max (pageSizeQ.getD 20) 1) 100,
    (cfg.images.reverse.drop
      ((max (pageQ.getD 1) 1 - 1) * min (max (pageSizeQ.getD 20) 1) 100 %
        USIZE_MOD)).take
      (min (max (pageSizeQ.getD 20) 1) 100)⟩,
    ?_, rfl, rfl, hk1, min_le_right _ _, ?_, ?_, rfl, rfl, ?_⟩
  · simp [list_images, hip]
  · intro h; subst h; rfl
  · intro h; subst h; rfl
  · have hmap : ∀ p ∈ List.range
        ((cfg.images.length + min (max (pageSizeQ.getD 20) 1) 100 - 1) /
          min (max (pageSizeQ.getD 20) 1) 100),
        (match list_images cfg addr (some (p + 1)) pageSizeQ with
         | .ok r => r.data
         | .error _ => []) =
        (cfg.images.reverse.drop
          (p * min (max (pageSizeQ.getD 20) 1) 100)).take
          (min (max (pageSizeQ.getD 20) 1) 100) := by
      intro p hp
      rw [List.mem_range] at hp
      have hmx : max (p + 1) 1 = p + 1 :=
        max_eq_left (Nat.succ_le_succ (Nat.zero_le p))
      have h1 : ((cfg.images.length + min (max (pageSizeQ.getD 20) 1) 100 - 1) /
            min (max (pageSizeQ.getD 20) 1) 100) *
            min (max (pageSizeQ.getD 20) 1) 100 ≤
          cfg.images.length + min (max (pageSizeQ.getD 20) 1) 100 - 1 :=
        Nat.div_mul_le_self _ _
      have h2 : (p + 1) * min (max (pageSizeQ.getD 20) 1) 100 ≤
          ((cfg.images.length + min (max (pageSizeQ.getD 20) 1) 100 - 1) /
            min (max (pageSizeQ.getD 20) 1) 100) *
            min (max (pageSizeQ.getD 20) 1) 100 :=
        Nat.mul_le_mul_right _ hp
      rw [Nat.succ_mul] at h2
      have hlt : p * min (max (pageSizeQ.getD 20) 1) 100 < 2 ^ 64 := by
        omega
      have hmod : p * min (max (pageSizeQ.getD 20) 1) 100 % USIZE_MOD =
          p * min (max (pageSizeQ.getD 20) 1) 100 := by
        unfold USIZE_MOD
        exact Nat.mod_eq_of_lt hlt
      simp [list_images, hip, hmx, hmod]
    rw [List.map_congr_left hmap, flatten_pages]
    apply List.take_of_length_le
    rw [List.length_reverse]
    exact le_ceil_mul _ _ hk1

/-- C6 witness (for the amended theorem). -/
theorem list_images_spec_witness :
    ∃ resp : ListResp,
      list_images ⟨[], [], [⟨"a", "", "h1", 0⟩, ⟨"b", "", "h2", 1⟩], none⟩ "a"
        none (some 1) = .ok resp ∧
      resp.page = max ((none : Option Nat).getD 1) 1 ∧
      resp.page_size = min (max ((some 1).getD 20) 1) 100 ∧
      1 ≤ resp.page_size ∧ resp.page_size ≤ 100 ∧
      ((none : Option Nat) = none → resp.page = 1) ∧
      ((some 1 : Option Nat) = none → resp.page_size = 20) ∧
      resp.total = ([⟨"a", "", "h1", 0⟩, ⟨"b", "", "h2", 1⟩] : List ImageMeta).length ∧
      resp.data = (([⟨"a", "", "h1", 0⟩, ⟨"b", "", "h2", 1⟩] : List ImageMeta).reverse.drop
        ((resp.page - 1) * resp.page_size % USIZE_MOD)).take resp.page_size ∧
      ((List.range
          ((([⟨"a", "", "h1", 0⟩, ⟨"b", "", "h2", 1⟩] : List ImageMeta).length +
            resp.page_size - 1) / resp.page_size)).map
        (fun p =>
          match list_images ⟨[], [], [⟨"a", "", "h1", 0⟩, ⟨"b", "", "h2", 1⟩], none⟩
              "a" (some (p + 1)) (some 1) with
          | .ok r => r.data
          | .error _ => [])).flatten =
        ([⟨"a", "", "h1", 0⟩, ⟨"b", "", "h2", 1⟩] : List ImageMeta).reverse :=
  list_images_spec ⟨[], [], [⟨"a", "", "h1", 0⟩, ⟨"b", "", "h2", 1⟩], none⟩ "a"
    none (some 1) (by decide) (by norm_num)

/-- C7: `download_image` resolves an identifier first as an exact name match,
taking the first match in insertion order; when no name matches, an
identifier made of exactly 64 ASCII hex digits is used directly as the
content hash; any other identifier yields 404 Not Found. -/
theorem download_resolution
    (cfg : AppConfig) (fs : Fs) (addr id : String) (thumb : Option Bool)
    (hip : check_ip cfg addr = true) :
    (∀ l1 img l2, cfg.images = l1 ++ img :: l2 → (∀ x ∈ l1, x.name ≠ id) →
      img.name = id → resolve_id cfg.images id = some img.hash) ∧
    ((∀ x ∈ cfg.images, x.name ≠ id) →
      (id.length == 64 && id.data.all isHexChar) = true →
      resolve_id cfg.images id = some id) ∧
    ((∀ x ∈ cfg.images, x.name ≠ id) →
      (id.length == 64 && id.data.all isHexChar) = false →
      download_image cfg fs addr id thumb = .error (404, "Image not found")) := by
  refine ⟨?_, ?_, ?_⟩
  · intro l1 img l2 hsplit hl1 himg
    have hfind : cfg.images.find? (fun i => i.name == id) = some img := by
      rw [hsplit]
      exact find_first_match _ _ _ _ (fun y hy => by simp [hl1 y hy])
        (by simp [himg])
    simp [resolve_id, hfind]
  · intro hno hhex
    have hfind : cfg.images.find? (fun i => i.name == id) = none :=
      List.find?_eq_none.mpr (fun x hx => by simp [hno x hx])
    simp [resolve_id, hfind, hhex]
  · intro hno hhex
    have hfind : cfg.images.find? (fun i => i.name == id) = none :=
      List.find?_eq_none.mpr (fun x hx => by simp [hno x hx])
    simp [download_image, hip, resolve_id, hfind, hhex]

/-- C7 witness. -/
theorem download_resolution_witness :
    (∀ l1 img l2,
      ([⟨"a", "", "h1", 0⟩] : List ImageMeta) = l1 ++ img :: l2 →
      (∀ x ∈ l1, x.name ≠ "a") → img.name = "a" →
      resolve_id [⟨"a", "", "h1", 0⟩] "a" = some img.hash) ∧
    ((∀ x ∈ ([⟨"a", "", "h1", 0⟩] : List ImageMeta), x.name ≠ "a") →
      (("a".length == 64 && "a".data.all isHexChar) = true) →
      resolve_id [⟨"a", "", "h1", 0⟩] "a" = some "a") ∧
    ((∀ x ∈ ([⟨"a", "", "h1", 0⟩] : List ImageMeta), x.name ≠ "a") →
      (("a".length == 64 && "a".data.all isHexChar) = false) →
      download_image ⟨[], [], [⟨"a", "", "h1", 0⟩], none⟩ ⟨[], [], []⟩ "ip" "a"
        none = .error (404, "Image not found")) :=
  download_resolution ⟨[], [], [⟨"a", "", "h1", 0⟩], none⟩ ⟨[], [], []⟩ "ip" "a"
    none (by decide)

theorem finishMeta_fs (cfg : AppConfig) (fs : Fs) (name desc hash : String)
    (env : UploadEnv) (dm dt : Bool) :
    (finishMeta cfg fs name desc hash env dm dt).fs = fs := by
  simp only [finishMeta]
  split <;> rfl

theorem finishMeta_images (cfg : AppConfig) (fs : Fs) (name desc hash : String)
    (env : UploadEnv) (dm dt : Bool) :
    (finishMeta cfg fs name desc hash env dm dt).images =
      cfg.images ++ [⟨name, desc, hash, env.now⟩] := by
  simp only [finishMeta]
  split <;> rfl

theorem finishMeta_response (cfg : AppConfig) (fs : Fs)
    (name desc hash : String) (env : UploadEnv) (dm dt : Bool) :
    (finishMeta cfg fs name desc hash env dm dt).response =
      (if env.saveOk then .ok ⟨name, desc, hash, env.now⟩
       else .error (500, "Save config failed")) := by
  simp only [finishMeta]
  split <;> simp_all

theorem finishMeta_flags (cfg : AppConfig) (fs : Fs) (name desc hash : String)
    (env : UploadEnv) (dm dt : Bool) :
    (finishMeta cfg fs name desc hash env dm dt).didMove = dm ∧
    (finishMeta cfg fs name desc hash env dm dt).didThumb = dt := by
  simp only [finishMeta]
  constructor <;> (split <;> rfl)

/-- C2: no staging file outlives a failed or abandoned upload.  Once
`upload_image` has passed the authorization gate (and hence has generated the
staging path and armed the `TempFileGuard`), every exit path — multipart
error, missing name or file part, I/O error, dedup, rename failure, thumbnail
join failure, persistence failure or full success — leaves the staging
directory without the request's staging file: the final temp directory always
equals the initial one with the staging name erased.  On an authorization
failure the handler exits before creating any staging file, leaving the
filesystem untouched. -/
theorem upload_no_staging (env : UploadEnv) (cfg : AppConfig) (fs : Fs)
    (req : UploadReq) :
    (check_ip cfg req.addr = true → check_token cfg req.token = true →
      (upload_image env cfg fs req).fs.temp = eraseFile fs.temp env.uuid) ∧
    (¬(check_ip cfg req.addr = true ∧ check_token cfg req.token = true) →
      (upload_image env cfg fs req).fs = fs) := by
  constructor
  case right =>
    intro hna
    by_cases hip : check_ip cfg req.addr = true
    · have htok : check_token cfg req.token = false := by
        cases h : check_token cfg req.token
        · rfl
        · exact absurd ⟨hip, h⟩ hna
      simp [upload_image, hip, htok]
    · have hip2 : check_ip cfg req.addr = false := by
        cases h : check_ip cfg req.addr
        · rfl
        · exact absurd h hip
      simp [upload_image, hip2]
  intro hip htok
  simp only [upload_image, hip, htok, Bool.not_true]
  simp only [Bool.false_eq_true, if_false]
  cases hpf : processFields env.hashHex req.fields ⟨none, "", "", none⟩ with
  | error e => simp [failOut, guardFire]
  | ok acc =>
    cases hname : acc.nameOpt with
    | none => simp [hname, failOut, guardFire]
    | some name =>
      cases htemp : acc.tempFile with
      | none => simp [hname, htemp, failOut, guardFire]
      | some content =>
        cases hdup : (getFile fs.images acc.fileHash).isSome with
        | true =>
          simp [hname, htemp, hdup, finishMeta_fs, guardFire]
        | false =>
          simp only [hname, htemp, hdup, Bool.false_eq_true, if_false,
            commitBranch]
          cases hren : env.renameOk with
          | false => simp [failOut, guardFire]
          | true =>
            simp only [if_true]
            cases hth : cfg.thumbnail_pixels with
            | none => simp [finishMeta_fs]
            | some k =>
              simp only []
              cases hj : env.joinOk with
              | false => simp [guardFire, eraseFile_idem]
              | true =>
                cases hto : env.thumbOut content with
                | none => simp [hto, finishMeta_fs]
                | some tb => simp [hto, finishMeta_fs]

/-- C2 witness. -/
theorem upload_no_staging_witness :
    (upload_image ⟨fun _ => "H", "u", true, fun _ => none, true, true, 0⟩
      ⟨["t"], [], [], none⟩ ⟨[("u", [9])], [], []⟩
      ⟨"a", some "t", []⟩).fs.temp = eraseFile [("u", [9])] "u" :=
  (upload_no_staging ⟨fun _ => "H", "u", true, fun _ => none, true, true, 0⟩
    ⟨["t"], [], [], none⟩ ⟨[("u", [9])], [], []⟩ ⟨"a", some "t", []⟩).1
    (by decide) (by decide)

/-- C8: when `save_config` fails after a mutating operation, the caller gets
InternalError while the in-memory index keeps the mutation: an upload that
reached the record append returns 500 "Save config failed" with the new
record still appended, and a delete whose removal succeeded returns 500
"Save failed" with the record still removed. -/
theorem persist_failure_keeps_mutation :
    (∀ (env : UploadEnv) (cfg : AppConfig) (fs : Fs) (addr : String)
        (tok : Option String) (name desc : String) (chunks : List Bytes),
      check_ip cfg addr = true → check_token cfg tok = true →
      env.saveOk = false → env.renameOk = true → env.joinOk = true →
      (upload_image env cfg fs
          ⟨addr, tok, simpleFields name desc chunks⟩).response =
        .error (500, "Save config failed") ∧
      (upload_image env cfg fs
          ⟨addr, tok, simpleFields name desc chunks⟩).images =
        cfg.images ++ [⟨name, desc, env.hashHex chunks.flatten, env.now⟩]) ∧
    (∀ (saveOk : Bool) (cfg : AppConfig) (fs : Fs) (addr : String)
        (tok : Option String) (name : String) (img : ImageMeta)
        (rest : List ImageMeta),
      check_ip cfg addr = true → check_token cfg tok = true →
      removeFirst (fun i => i.name == name) cfg.images = some (img, rest) →
      saveOk = false →
      (delete_image saveOk cfg fs addr tok name).response =
        .error (500, "Save failed") ∧
      (delete_image saveOk cfg fs addr tok name).images = rest) := by
  constructor
  · intro env cfg fs addr tok name desc chunks hip htok hsave hren hjoin
    simp only [upload_image, hip, htok, Bool.not_true, Bool.false_eq_true,
      if_false, processFields_simple]
    cases hdup : (getFile fs.images (env.hashHex chunks.flatten)).isSome with
    | true =>
      simp [hdup, finishMeta_response, finishMeta_images, hsave]
    | false =>
      simp only [hdup, Bool.false_eq_true, if_false, commitBranch, hren,
        if_true]
      cases hth : cfg.thumbnail_pixels with
      | none => simp [finishMeta_response, finishMeta_images, hsave]
      | some k =>
        simp only [hjoin, if_true]
        cases hto : env.thumbOut chunks.flatten with
        | none => simp [hto, finishMeta_response, finishMeta_images, hsave]
        | some tb => simp [hto, finishMeta_response, finishMeta_images, hsave]
  · intro saveOk cfg fs addr tok name img rest hip htok hrf hsave
    subst hsave
    cases huse : rest.any (fun i => i.hash == img.hash) <;>
      simp [delete_image, hip, htok, hrf, huse]

/-- C8 witness. -/
theorem persist_failure_keeps_mutation_witness :
    ((upload_image ⟨fun b => toString b.length, "u", true, fun _ => none,
        true, false, 3⟩ ⟨["t"], [], [], none⟩ ⟨[], [], []⟩
        ⟨"a", some "t", simpleFields "n" "d" [[1, 2]]⟩).response =
      .error (500, "Save config failed") ∧
     (upload_image ⟨fun b => toString b.length, "u", true, fun _ => none,
        true, false, 3⟩ ⟨["t"], [], [], none⟩ ⟨[], [], []⟩
        ⟨"a", some "t", simpleFields "n" "d" [[1, 2]]⟩).images =
      [] ++ [⟨"n", "d", toString ([[1, 2]] : List Bytes).flatten.length, 3⟩]) ∧
    ((delete_image false ⟨["t"], [], [⟨"n", "", "h", 0⟩], none⟩ ⟨[], [], []⟩
        "a" (some "t") "n").response = .error (500, "Save failed") ∧
     (delete_image false ⟨["t"], [], [⟨"n", "", "h", 0⟩], none⟩ ⟨[], [], []⟩
        "a" (some "t") "n").images = []) :=
  ⟨persist_failure_keeps_mutation.1 _ _ _ "a" (some "t") "n" "d" [[1, 2]]
      (by decide) (by decide) rfl rfl rfl,
   persist_failure_keeps_mutation.2 false _ _ "a" (some "t") "n"
      ⟨"n", "", "h", 0⟩ [] (by decide) (by decide) (by decide) rfl⟩

/-- C3 counterexample: a concrete upload whose `fs::rename` fails (the
outcome a concurrently committed destination produces) does NOT return the
created ImageRecord; it returns 500 "File move failed". -/
theorem rename_failure_counterexample :
    (upload_image ⟨fun _ => "h", "u", false, fun _ => none, true, true, 0⟩
      ⟨["t"], [], [], none⟩ ⟨[], [], []⟩
      ⟨"a", some "t", simpleFields "n" "" [[1]]⟩).response =
      .error (500, "File move failed") := by
  rfl

/-- C3 (amended): when the pre-move existence check found no file and the
atomic move then fails — for any reason, including a destination created by a
concurrent identical upload — `upload_image` does not treat the failure as
success-via-dedup: it returns 500 "File move failed", appends no record, and
the guard deletes the staging file.  Success-via-dedup happens only through
the pre-move existence check. -/
theorem rename_failure_returns_error
    (env : UploadEnv) (cfg : AppConfig) (fs : Fs) (addr : String)
    (tok : Option String) (name desc : String) (chunks : List Bytes)
    (hip : check_ip cfg addr = true) (htok : check_token cfg tok = true)
    (habs : getFile fs.images (env.hashHex chunks.flatten) = none)
    (hren : env.renameOk = false) :
    upload_image env cfg fs ⟨addr, tok, simpleFields name desc chunks⟩ =
      ⟨.error (500, "File move failed"), cfg.images, guardFire fs env.uuid,
        false, false⟩ := by
  simp only [upload_image, hip, htok, Bool.not_true, Bool.false_eq_true,
    if_false, processFields_simple, habs, Option.isSome_none, commitBranch,
    hren]
  simp [failOut, guardFire]

/-- C3 witness (for the amended theorem). -/
theorem rename_failure_returns_error_witness :
    upload_image ⟨fun _ => "h", "u", false, fun _ => some [], true, true, 0⟩
      ⟨["t"], [], [], none⟩ ⟨[], [], []⟩
      ⟨"a", some "t", simpleFields "n" "" [[2]]⟩ =
      ⟨.error (500, "File move failed"), [],
        guardFire ⟨[], [], []⟩ "u", false, false⟩ :=
  rename_failure_returns_error ⟨fun _ => "h", "u", false, fun _ => some [],
    true, true, 0⟩ ⟨["t"], [], [], none⟩ ⟨[], [], []⟩ "a" (some "t") "n" ""
    [[2]] (by decide) (by decide) (by decide) rfl

/-- C4 (code bug evidence): a multipart `file` part whose chunk stream fails
with a read error after delivering one chunk does not abort the upload: the
`while let Ok(Some(chunk))` loop swallows the `Err`, the upload finalises the
digest over the truncated prefix, commits the truncated staging file to the
images directory and records it in the index, returning 200 with the new
ImageRecord — where the claim (and spec §7) requires an abort with an error
before any commit. -/
theorem stream_read_error_commits_truncation :
    upload_image ⟨fun b => toString b.length, "u", true, fun _ => none, true,
      true, 7⟩ ⟨["t"], [], [], none⟩ ⟨[], [], []⟩
      ⟨"a", some "t",
        [.nameF (.ok "n"), .fileF true [.ok [1, 2, 3], .readErr] none]⟩ =
      ⟨.ok ⟨"n", "", "3", 7⟩, [⟨"n", "", "3", 7⟩],
        ⟨[], [("3", [1, 2, 3])], []⟩, true, false⟩ := by
  rfl

/-- C1: uploading the same bytes twice under different names: both uploads
succeed, the two returned records carry the same content hash, the images
directory holds exactly one file named by that hash, and the second upload
neither moves its staging file into the images directory nor performs any
thumbnail work. -/
theorem upload_dedup_idempotent
    (env1 env2 : UploadEnv) (cfg : AppConfig) (fs : Fs)
    (name1 name2 desc1 desc2 : String) (chunks1 chunks2 : List Bytes)
    (B : Bytes) (addr1 addr2 : String) (tok1 tok2 : Option String)
    (hH : env2.hashHex = env1.hashHex)
    (hip1 : check_ip cfg addr1 = true) (htok1 : check_token cfg tok1 = true)
    (hip2 : check_ip cfg addr2 = true) (htok2 : check_token cfg tok2 = true)
    (hj1 : chunks1.flatten = B) (hj2 : chunks2.flatten = B)
    (habs : getFile fs.images (env1.hashHex B) = none)
    (hren : env1.renameOk = true) (hjoin : env1.joinOk = true)
    (hs1 : env1.saveOk = true) (hs2 : env2.saveOk = true) :
    ∃ r1 r2 : UploadResult,
      upload_image env1 cfg fs
        ⟨addr1, tok1, simpleFields name1 desc1 chunks1⟩ = r1 ∧
      upload_image env2 { cfg with images := r1.images } r1.fs
        ⟨addr2, tok2, simpleFields name2 desc2 chunks2⟩ = r2 ∧
      r1.response = .ok ⟨name1, desc1, env1.hashHex B, env1.now⟩ ∧
      r2.response = .ok ⟨name2, desc2, env1.hashHex B, env2.now⟩ ∧
      r2.fs.images = r1.fs.images ∧
      countName r2.fs.images (env1.hashHex B) = 1 ∧
      r2.didMove = false ∧ r2.didThumb = false := by
  have key1 : (upload_image env1 cfg fs
        ⟨addr1, tok1, simpleFields name1 desc1 chunks1⟩).response =
      .ok ⟨name1, desc1, env1.hashHex B, env1.now⟩ ∧
      (upload_image env1 cfg fs
        ⟨addr1, tok1, simpleFields name1 desc1 chunks1⟩).fs.images =
      putFile fs.images (env1.hashHex B) B := by
    simp only [upload_image, hip1, htok1, Bool.not_true, Bool.false_eq_true,
      if_false, processFields_simple, hj1, habs, Option.isSome_none,
      commitBranch, hren, if_true]
    cases hth : cfg.thumbnail_pixels with
    | none => simp [finishMeta_response, finishMeta_fs, hs1]
    | some k =>
      simp only [hjoin, if_true]
      cases hto : env1.thumbOut B with
      | none => simp [hto, finishMeta_response, finishMeta_fs, hs1]
      | some tb => simp [hto, finishMeta_response, finishMeta_fs, hs1]
  obtain ⟨k1r, k1i⟩ := key1
  generalize hg : upload_image env1 cfg fs
    ⟨addr1, tok1, simpleFields name1 desc1 chunks1⟩ = r1 at k1r k1i ⊢
  have hip2b : check_ip { cfg with images := r1.images } addr2 = true := hip2
  have htok2b : check_token { cfg with images := r1.images } tok2 = true :=
    htok2
  have key2 : upload_image env2 { cfg with images := r1.images } r1.fs
        ⟨addr2, tok2, simpleFields name2 desc2 chunks2⟩ =
      finishMeta { cfg with images := r1.images }
        (guardFire r1.fs env2.uuid) name2 desc2 (env1.hashHex B) env2
        false false := by
    simp only [upload_image, hip2b, htok2b, Bool.not_true, Bool.false_eq_true,
      if_false, processFields_simple, hH, hj2, k1i, getFile_putFile,
      Option.isSome_some, if_true]
  refine ⟨r1, _, rfl, rfl, k1r, ?_, ?_, ?_, ?_, ?_⟩
  · rw [key2, finishMeta_response, hs2]
    rfl
  · rw [key2, finishMeta_fs]
    rfl
  · rw [key2, finishMeta_fs,
      show (guardFire r1.fs env2.uuid).images = r1.fs.images from rfl, k1i]
    exact countName_putFile _ _ _
  · rw [key2]
    exact (finishMeta_flags _ _ _ _ _ _ _ _).1
  · rw [key2]
    exact (finishMeta_flags _ _ _ _ _ _ _ _).2

/-- C1 witness. -/
theorem upload_dedup_idempotent_witness :
    ∃ r1 r2 : UploadResult,
      upload_image ⟨fun _ => "h", "u1", true, fun _ => none, true, true, 0⟩
        ⟨["t"], [], [], none⟩ ⟨[], [], []⟩
        ⟨"a1", some "t", simpleFields "n1" "d1" [[5]]⟩ = r1 ∧
      upload_image ⟨fun _ => "h", "u2", true, fun _ => none, true, true, 1⟩
        ⟨["t"], [], r1.images, none⟩ r1.fs
        ⟨"a2", some "t", simpleFields "n2" "d2" [[5]]⟩ = r2 ∧
      r1.response = .ok ⟨"n1", "d1", "h", 0⟩ ∧
      r2.response = .ok ⟨"n2", "d2", "h", 1⟩ ∧
      r2.fs.images = r1.fs.images ∧
      countName r2.fs.images "h" = 1 ∧
      r2.didMove = false ∧ r2.didThumb = false :=
  upload_dedup_idempotent
    ⟨fun _ => "h", "u1", true, fun _ => none, true, true, 0⟩
    ⟨fun _ => "h", "u2", true, fun _ => none, true, true, 1⟩
    ⟨["t"], [], [], none⟩ ⟨[], [], []⟩ "n1" "n2" "d1" "d2" [[5]] [[5]] [5]
    "a1" "a2" (some "t") (some "t") rfl (by decide) (by decide) (by decide)
    (by decide) rfl rfl rfl rfl rfl rfl rfl
